import Mathlib

set_option maxHeartbeats 1000000

/-!
Verification development for the WebSocket chat application (src/main.py).

The development shallowly embeds the `ConnectionManager` class and the chat
frame dispatch of `websocket_endpoint`.  Python dictionaries are modelled as
insertion-ordered association lists with unique keys; `d.get(k)` / `d[k] = v` /
`del d[k]` become `dget` / `dset` / `derase`.  Network and database side
effects (`websocket.send_text`, `websocket.close`, `save_message`,
`set_user_online_status`) are recorded as events in a trace; whether a given
socket accepts a send and what the database returns are supplied by an
`Oracle`.  Timestamps carried in outbound JSON payloads are real-time values
and are omitted from the envelope model.
-/

namespace Chat

/-- Session tokens are opaque strings (src/main.py, generate_session_token). -/
abbrev Token := String

/-- A live WebSocket connection handle, identified abstractly by a number. -/
abbrev WS := Nat

/-- The user_info dict passed to ConnectionManager.connect
(src/main.py lines 695-698): the id and username of the authenticated user. -/
structure UserInfo where
  id : Nat
  username : String
deriving DecidableEq, Repr

/-- Python dict lookup `d.get(k)` (also `d[k]` when present): the value bound
to the key, if any. -/
def dget {β : Type} : List (String × β) → String → Option β
  | [], _ => none
  | (k1, v) :: rest, k => if k1 = k then some v else dget rest k

/-- Python dict assignment `d[k] = v`: replaces the binding in place when the
key is present, otherwise appends it (insertion-order semantics). -/
def dset {β : Type} : List (String × β) → String → β → List (String × β)
  | [], k, v => [(k, v)]
  | (k1, v1) :: rest, k, v =>
      if k1 = k then (k, v) :: rest else (k1, v1) :: dset rest k v

/-- Python dict deletion `del d[k]`: removes the binding for the key. -/
def derase {β : Type} : List (String × β) → String → List (String × β)
  | [], _ => []
  | (k1, v1) :: rest, k => if k1 = k then rest else (k1, v1) :: derase rest k

/-- The key list of a dict, in insertion order. -/
def dkeys {β : Type} (d : List (String × β)) : List String := d.map Prod.fst

/-- Outbound JSON payloads built by the server (src/main.py lines 712-790 and
455-460), with the real-time timestamp fields omitted. -/
inductive Envelope where
  | chat (content sender : String) (is_global : Bool) (recipient : Option String)
  | chat_sent (content sender : String) (is_global : Bool) (recipient : Option String)
      (delivered : Bool)
  | typing (username : String) (is_typing : Bool) (recipient : Option String)
  | user_list_update (users : List String) (message : Option String)
  | error (message : String)
deriving DecidableEq, Repr

/-- Observable side effects of the server code, in program order: a send
attempt on a socket together with its outcome (`websocket.send_text`), the
best-effort close of an evicted connection, a `set_user_online_status` call,
and a successful `save_message` insert. -/
inductive Event where
  | sent (ws : WS) (env : Envelope) (ok : Bool)
  | evicted (old_session : Token)
  | setOnline (user_id : Nat) (is_online : Bool)
  | persisted (content : String) (sender_id : Nat) (recipient_id : Option Nat)
deriving DecidableEq, Repr

/-- The three maps owned by ConnectionManager (src/main.py lines 346-352). -/
structure CMState where
  active_connections : List (Token × WS)
  user_sessions : List (Token × UserInfo)
  username_to_session : List (String × Token)
deriving DecidableEq, Repr

/-- Fresh ConnectionManager (src/main.py line 478). -/
def initState : CMState := ⟨[], [], []⟩

/-- Environment behaviour outside the manager: whether a given socket accepts
a send (a transport property of the connection, so fixed per socket), what
user a verified session token is bound to (verify_session_token), and the
get_user_by_username lookup. -/
structure Oracle where
  sendOk : WS → Bool
  userOfToken : Token → UserInfo
  dbUser : String → Option UserInfo

/-- Python truthiness of an optional string: None and the empty string are
falsy. -/
def pyTruthy : Option String → Bool
  | none => false
  | some s => s != ""

/-- ConnectionManager.disconnect (src/main.py lines 386-408).  Returns the new
state, the trace of side effects, and the username (the method's return
value: the username if an entry was removed, None otherwise).  When the
session is present but its user_sessions entry is missing, the code falls
back to username "Unknown" and skips the DB update; the `if user_id:` guard
also skips the DB update for a falsy (zero) id. -/
def disconnect (s : CMState) (session_token : Token) :
    CMState × List Event × Option String :=
  match dget s.active_connections session_token with
  | none => (s, [], none)
  | some _ =>
    let user_info := dget s.user_sessions session_token
    let username := match user_info with
      | some u => u.username
      | none => "Unknown"
    let uid : Option Nat := match user_info with
      | some u => some u.id
      | none => none
    let s1 : CMState :=
      { active_connections := derase s.active_connections session_token,
        user_sessions := derase s.user_sessions session_token,
        username_to_session :=
          if (dget s.username_to_session username).isSome then
            derase s.username_to_session username
          else s.username_to_session }
    let evs : List Event := match uid with
      | some n => if n = 0 then [] else [Event.setOnline n false]
      | none => []
    (s1, evs, some username)

/-- The skip test of the broadcast loop (src/main.py line 433):
`if exclude_session and session_token == exclude_session: continue`. -/
def shouldExclude (exclude_session : Option Token) (session_token : Token) : Bool :=
  pyTruthy exclude_session && decide (exclude_session = some session_token)

/-- The delivery sweep of ConnectionManager.broadcast (src/main.py lines
430-442): one send attempt per entry of active_connections in order, skipping
the excluded session, collecting the sessions whose send raised. -/
def broadcastSends (o : Oracle) (conns : List (Token × WS)) (message : Envelope)
    (exclude_session : Option Token) : List Event × List Token :=
  match conns with
  | [] => ([], [])
  | (session_token, websocket) :: rest =>
    if shouldExclude exclude_session session_token then
      broadcastSends o rest message exclude_session
    else
      let tail := broadcastSends o rest message exclude_session
      if o.sendOk websocket then (Event.sent websocket message true :: tail.1, tail.2)
      else (Event.sent websocket message false :: tail.1, session_token :: tail.2)

/-- The batched cleanup of ConnectionManager.broadcast (src/main.py lines
444-446): disconnect each failed session in order. -/
def cleanupFailed : CMState → List Token → CMState × List Event
  | s, [] => (s, [])
  | s, t :: rest =>
    let d := disconnect s t
    let r := cleanupFailed d.1 rest
    (r.1, d.2.1 ++ r.2)

/-- ConnectionManager.broadcast (src/main.py lines 426-446), run with no
interleaved mutation of the manager: the delivery sweep followed by the
batched cleanup of failed sessions. -/
def broadcast (o : Oracle) (s : CMState) (message : Envelope)
    (exclude_session : Option Token) : CMState × List Event :=
  let sw := broadcastSends o s.active_connections message exclude_session
  let cl := cleanupFailed s sw.2
  (cl.1, sw.1 ++ cl.2)

/-- ConnectionManager.get_active_users (src/main.py lines 465-467). -/
def get_active_users (s : CMState) : List String :=
  s.user_sessions.map (fun p => p.2.username)

/-- ConnectionManager.broadcast_user_list_update (src/main.py lines 448-463):
broadcast the current user list (with an optional human-readable message) to
everyone, with no exclusion. -/
def broadcast_user_list_update (o : Oracle) (s : CMState) (message : Option String) :
    CMState × List Event :=
  broadcast o s (Envelope.user_list_update (get_active_users s) message) none

/-- The eviction step of ConnectionManager.connect (src/main.py lines
361-370): if the username already has a session whose connection is live,
close that connection (best effort) and delete it from active_connections and
user_sessions. -/
def connectEvict (s : CMState) (username : String) : CMState × List Event :=
  match dget s.username_to_session username with
  | some old_session =>
    match dget s.active_connections old_session with
    | some _ =>
      ({ s with active_connections := derase s.active_connections old_session,
                user_sessions := derase s.user_sessions old_session },
       [Event.evicted old_session])
    | none => (s, [])
  | none => (s, [])

/-- The installation step of ConnectionManager.connect (src/main.py lines
372-375): store the new connection under the session token and point the
username at it. -/
def connectInstall (s : CMState) (session_token : Token) (websocket : WS)
    (user_info : UserInfo) : CMState :=
  { active_connections := dset s.active_connections session_token websocket,
    user_sessions := dset s.user_sessions session_token user_info,
    username_to_session := dset s.username_to_session user_info.username session_token }

/-- ConnectionManager.connect (src/main.py lines 354-384): evict any previous
session of the same username, install the new connection, mark the user
online in the database, then broadcast the updated user list. -/
def connect (o : Oracle) (s : CMState) (websocket : WS) (session_token : Token)
    (user_info : UserInfo) : CMState × List Event :=
  let e := connectEvict s user_info.username
  let s2 := connectInstall e.1 session_token websocket user_info
  let b := broadcast_user_list_update o s2 (some (user_info.username ++ " joined the chat"))
  (b.1, e.2 ++ [Event.setOnline user_info.id true] ++ b.2)

/-- ConnectionManager.send_personal_message (src/main.py lines 410-424):
look up the recipient's live connection by username; absent (or falsy token,
or token with no live connection) returns False with no effect; on a send
failure, disconnect that session and return False. -/
def send_personal_message (o : Oracle) (s : CMState) (message : Envelope)
    (username : String) : CMState × List Event × Bool :=
  match dget s.username_to_session username with
  | none => (s, [], false)
  | some session_token =>
    if session_token = "" then (s, [], false)
    else
      match dget s.active_connections session_token with
      | none => (s, [], false)
      | some websocket =>
        if o.sendOk websocket then (s, [Event.sent websocket message true], true)
        else
          let d := disconnect s session_token
          (d.1, Event.sent websocket message false :: d.2.1, false)

/-- A parsed, object-shaped inbound frame (src/main.py lines 719-721): the
optional "type" field, the "content" field defaulting to "", the optional
"recipient" field, and the "is_typing" field defaulting to False. -/
structure Frame where
  type? : Option String
  content : String
  recipient : Option String
  is_typing : Bool
deriving DecidableEq, Repr

/-- Recipient resolution for a chat frame (src/main.py lines 725-735):
when the recipient field is truthy, look the username up; an unknown username
is the error case (outer none).  Otherwise the message is treated as having
no recipient id (inner none). -/
def resolveRecipient (o : Oracle) (recipient : Option String) : Option (Option Nat) :=
  if pyTruthy recipient then
    match o.dbUser (recipient.getD "") with
    | some recipient_user => some (some recipient_user.id)
    | none => none
  else some none

/-- One iteration of the read loop of websocket_endpoint for a parsed frame
(src/main.py lines 718-791).  `saveOk` tells whether the save_message insert
succeeds for this frame.  Returns the manager state, the event trace, and
whether an exception escaped the iteration (a failed direct send on the
sender's own socket propagates to the outer handler; sends inside
send_personal_message and broadcast are caught there). -/
def handleFrame (o : Oracle) (s : CMState) (token : Token) (user_info : UserInfo)
    (websocket : WS) (saveOk : Bool) (f : Frame) : CMState × List Event × Bool :=
  let message_type := f.type?.getD "chat"
  let recipient := f.recipient
  if message_type = "chat" then
    match resolveRecipient o recipient with
    | none =>
      (s,
       [Event.sent websocket
         (Envelope.error ("User " ++ recipient.getD "" ++ " not found"))
         (o.sendOk websocket)],
       !o.sendOk websocket)
    | some recipient_id =>
      if saveOk then
        let env := Envelope.chat f.content user_info.username recipient.isNone recipient
        match recipient with
        | none =>
          let b := broadcast o s env none
          (b.1, Event.persisted f.content user_info.id recipient_id :: b.2, false)
        | some r =>
          let p := send_personal_message o s env r
          let conf := Envelope.chat_sent f.content user_info.username
            recipient.isNone recipient p.2.2
          (p.1,
           Event.persisted f.content user_info.id recipient_id ::
             (p.2.1 ++ [Event.sent websocket conf (o.sendOk websocket)]),
           !o.sendOk websocket)
      else
        (s,
         [Event.sent websocket (Envelope.error "Failed to save message")
           (o.sendOk websocket)],
         !o.sendOk websocket)
  else if message_type = "typing" then
    let env := Envelope.typing user_info.username f.is_typing recipient
    if pyTruthy recipient then
      let p := send_personal_message o s env (recipient.getD "")
      (p.1, p.2.1, false)
    else
      let b := broadcast o s env (some token)
      (b.1, b.2, false)
  else if message_type = "request_user_list" then
    let b := broadcast_user_list_update o s none
    (b.1, b.2, false)
  else (s, [], false)

/-- Connection teardown (src/main.py lines 793-806): on WebSocketDisconnect
or any other exception, disconnect the session and, only when disconnect
returned a (truthy) username, broadcast a user list update whose message
names the departed user; `error_path` selects which of the two except
branches ran. -/
def teardown (o : Oracle) (s : CMState) (token : Token) (error_path : Bool) :
    CMState × List Event :=
  let d := disconnect s token
  match d.2.2 with
  | some username =>
    if username = "" then (d.1, d.2.1)
    else
      let reason := if error_path then username ++ " disconnected due to error"
        else username ++ " left the chat"
      let b := broadcast_user_list_update o d.1 (some reason)
      (b.1, d.2.1 ++ b.2)
  | none => (d.1, d.2.1)

/-- The registry operations observable across connections: an admission for a
verified token (websocket_endpoint line 701), an explicit disconnect, a
direct send, and a broadcast. -/
inductive Op where
  | connect (token : Token) (ws : WS)
  | disconnect (token : Token)
  | sendPersonal (username : String) (env : Envelope)
  | broadcastMsg (env : Envelope) (exclude : Option Token)

/-- State reached after one registry operation; the user_info passed to
connect is the one the token verifies to, as in websocket_endpoint lines
690-701. -/
def applyOp (o : Oracle) (s : CMState) : Op → CMState
  | Op.connect t w => (connect o s w t (o.userOfToken t)).1
  | Op.disconnect t => (disconnect s t).1
  | Op.sendPersonal u env => (send_personal_message o s env u).1
  | Op.broadcastMsg env ex => (broadcast o s env ex).1

/-- State reached after a sequence of registry operations. -/
def runOps (o : Oracle) : CMState → List Op → CMState
  | s, [] => s
  | s, op :: rest => runOps o (applyOp o s op) rest

/-- The broadcast loop under asyncio interleaving.  The source iterates
`self.active_connections.items()` directly (src/main.py line 432) with an
await inside the loop body, so a concurrent task that runs the (synchronous)
ConnectionManager.disconnect during one of those awaits mutates the dict
being iterated; per CPython dict-iterator semantics the next iteration step
then raises RuntimeError, modelled as `Except.error ()`.  `sched` lists, for
each send's await point, an optional concurrent disconnect; `origLen` is the
dict size recorded when the iterator was created. -/
def broadcastIGo (o : Oracle) (message : Envelope) (exclude_session : Option Token)
    (origLen : Nat) :
    List (Token × WS) → CMState → List (Option Token) → List Event → List Token →
      Except Unit (CMState × List Event)
  | remaining, s, sched, evs, failed =>
    if s.active_connections.length ≠ origLen then Except.error ()
    else
      match remaining with
      | [] =>
        let cl := cleanupFailed s failed
        Except.ok (cl.1, evs ++ cl.2)
      | (session_token, websocket) :: rest =>
        if shouldExclude exclude_session session_token then
          broadcastIGo o message exclude_session origLen rest s sched evs failed
        else
          let ok := o.sendOk websocket
          let evs1 := evs ++ [Event.sent websocket message ok]
          let failed1 := if ok then failed else failed ++ [session_token]
          match sched with
          | [] => broadcastIGo o message exclude_session origLen rest s [] evs1 failed1
          | c :: cs =>
            let s1 := match c with
              | some tk => (disconnect s tk).1
              | none => s
            broadcastIGo o message exclude_session origLen rest s1 cs evs1 failed1

/-- ConnectionManager.broadcast under asyncio interleaving: iterate the live
dict starting from its current entry list and size. -/
def broadcastI (o : Oracle) (s : CMState) (message : Envelope)
    (exclude_session : Option Token) (sched : List (Option Token)) :
    Except Unit (CMState × List Event) :=
  broadcastIGo o message exclude_session s.active_connections.length
    s.active_connections s sched [] []

/-- Consistency invariant of the three ConnectionManager maps, relative to
the token-to-user binding enforced by verify_session_token: the maps have
unique keys, active_connections and user_sessions have the same key set,
every stored user_info is the one its token verifies to, and
username_to_session is exactly the inverse of the token-to-username view of
user_sessions. -/
structure Inv (o : Oracle) (s : CMState) : Prop where
  nodupA : (dkeys s.active_connections).Nodup
  nodupU : (dkeys s.user_sessions).Nodup
  nodupN : (dkeys s.username_to_session).Nodup
  sameKeys : ∀ t, (dget s.active_connections t).isSome ↔ (dget s.user_sessions t).isSome
  infoOk : ∀ t info, dget s.user_sessions t = some info → info = o.userOfToken t
  ntsOk : ∀ u t, dget s.username_to_session u = some t →
    ∃ info, dget s.user_sessions t = some info ∧ info.username = u
  usOk : ∀ t info, dget s.user_sessions t = some info →
    dget s.username_to_session info.username = some t

/-- Predicate: the event is a send of a user_list_update envelope, i.e. a
presence announcement reaching some client. -/
def isPresenceAnnouncement : Event → Bool
  | Event.sent _ (Envelope.user_list_update _ _) _ => true
  | _ => false

/-- Predicate: the event is a successful save_message insert. -/
def isPersistEvent : Event → Bool
  | Event.persisted _ _ _ => true
  | _ => false

/-- Predicate: the event is a send attempt carrying exactly this envelope. -/
def isSendOf (env : Envelope) : Event → Bool
  | Event.sent _ env1 _ => env1 == env
  | _ => false

/-- Predicate: the event is a send attempt on some socket. -/
def isSendEvent : Event → Bool
  | Event.sent _ _ _ => true
  | _ => false

/-- Concrete environment for witnesses: session tokens "ta" and "ta2" verify
to alice (user id 1), every other token to bob (user id 2); alice and bob are
the registered users; every socket accepts sends. -/
def oracleA : Oracle where
  sendOk := fun _ => true
  userOfToken := fun t => if t = "ta" || t = "ta2" then ⟨1, "alice"⟩ else ⟨2, "bob"⟩
  dbUser := fun u =>
    if u = "alice" then some ⟨1, "alice"⟩
    else if u = "bob" then some ⟨2, "bob"⟩
    else none

/-- The same environment after socket number 2 went dead. -/
def oracleB : Oracle := { oracleA with sendOk := fun w => w != 2 }

/-- State with alice connected on socket 1 (token "ta") and bob on socket 2
(token "tb"), reached by two admissions from the fresh manager. -/
def stateAB : CMState :=
  runOps oracleA initState [Op.connect "ta" 1, Op.connect "tb" 2]

theorem dget_dset_self {β : Type} (d : List (String × β)) (k : String) (v : β) :
    dget (dset d k v) k = some v := by
  induction d with
  | nil => simp [dget, dset]
  | cons p rest ih =>
    obtain ⟨k1, v1⟩ := p
    by_cases h : k1 = k
    · simp [dset, dget, h]
    · simp [dset, dget, h, ih]

theorem dget_dset_ne {β : Type} (d : List (String × β)) (k k1 : String) (v : β)
    (h : k1 ≠ k) : dget (dset d k v) k1 = dget d k1 := by
  have h' : k ≠ k1 := Ne.symm h
  induction d with
  | nil => simp [dget, dset, h']
  | cons p rest ih =>
    obtain ⟨k2, v2⟩ := p
    by_cases h2 : k2 = k
    · simp [dset, dget, h2, h']
    · simp only [dset, if_neg h2, dget]
      by_cases h3 : k2 = k1 <;> simp [h3, ih]

theorem dget_derase_ne {β : Type} (d : List (String × β)) (k k1 : String)
    (h : k1 ≠ k) : dget (derase d k) k1 = dget d k1 := by
  have h' : k ≠ k1 := Ne.symm h
  induction d with
  | nil => simp [derase]
  | cons p rest ih =>
    obtain ⟨k2, v2⟩ := p
    by_cases h2 : k2 = k
    · simp [derase, dget, h2, h']
    · simp only [derase, if_neg h2, dget]
      by_cases h3 : k2 = k1 <;> simp [h3, ih]

theorem dget_mem_dkeys {β : Type} {d : List (String × β)} {k : String} {v : β}
    (h : dget d k = some v) : k ∈ dkeys d := by
  induction d with
  | nil => simp [dget] at h
  | cons p rest ih =>
    obtain ⟨k1, v1⟩ := p
    by_cases h1 : k1 = k
    · simp [dkeys, h1]
    · simp only [dget, if_neg h1] at h
      rw [dkeys, List.map_cons, List.mem_cons]
      exact Or.inr (ih h)

theorem dget_eq_none_of_not_mem {β : Type} {d : List (String × β)} {k : String}
    (h : k ∉ dkeys d) : dget d k = none := by
  induction d with
  | nil => rfl
  | cons p rest ih =>
    obtain ⟨k1, v1⟩ := p
    rw [dkeys, List.map_cons, List.mem_cons] at h
    push_neg at h
    have h1 : k1 ≠ k := fun he => h.1 he.symm
    have h2 : k ∉ dkeys rest := h.2
    simp [dget, h1, ih h2]

theorem dget_derase_self {β : Type} {d : List (String × β)} (k : String)
    (h : (dkeys d).Nodup) : dget (derase d k) k = none := by
  induction d with
  | nil => rfl
  | cons p rest ih =>
    obtain ⟨k1, v1⟩ := p
    rw [dkeys, List.map_cons, List.nodup_cons] at h
    by_cases h1 : k1 = k
    · subst h1
      simp only [derase, if_pos rfl]
      exact dget_eq_none_of_not_mem h.1
    · have h2 : (dkeys rest).Nodup := h.2
      simp [derase, h1, dget, ih h2]

theorem dget_derase_none {β : Type} {d : List (String × β)} {k k1 : String}
    (h : dget d k1 = none) : dget (derase d k) k1 = none := by
  induction d with
  | nil => rfl
  | cons p rest ih =>
    obtain ⟨k2, v2⟩ := p
    by_cases h2 : k2 = k1
    · subst h2
      simp [dget] at h
    · simp only [dget, if_neg h2] at h
      by_cases h3 : k2 = k
      · simp [derase, h3, h]
      · simp [derase, h3, dget, h2, ih h]

theorem dkeys_derase_sublist {β : Type} (d : List (String × β)) (k : String) :
    (dkeys (derase d k)).Sublist (dkeys d) := by
  induction d with
  | nil => simp [derase]
  | cons p rest ih =>
    obtain ⟨k1, v1⟩ := p
    by_cases h1 : k1 = k
    · simp only [derase, if_pos h1, dkeys, List.map_cons]
      exact List.sublist_cons_self _ _
    · simp only [derase, if_neg h1, dkeys, List.map_cons]
      exact List.Sublist.cons₂ _ ih

theorem dkeys_nodup_derase {β : Type} {d : List (String × β)} {k : String}
    (h : (dkeys d).Nodup) : (dkeys (derase d k)).Nodup :=
  (dkeys_derase_sublist d k).nodup h

theorem dkeys_dset {β : Type} (d : List (String × β)) (k : String) (v : β) :
    dkeys (dset d k v) = dkeys d ∨
      (dkeys (dset d k v) = dkeys d ++ [k] ∧ k ∉ dkeys d) := by
  induction d with
  | nil => simp [dset, dkeys]
  | cons p rest ih =>
    obtain ⟨k1, v1⟩ := p
    by_cases h1 : k1 = k
    · subst h1
      simp [dset, dkeys]
    · rcases ih with h2 | ⟨h2, h3⟩
      · exact Or.inl (by simp [dset, h1, dkeys] at h2 ⊢; exact h2)
      · refine Or.inr ⟨?_, ?_⟩
        · simp [dset, h1, dkeys] at h2 ⊢; exact h2
        · simp [dkeys] at h3 ⊢
          exact ⟨fun h4 => h1 h4.symm, h3⟩

theorem dkeys_nodup_dset {β : Type} {d : List (String × β)} {k : String} {v : β}
    (h : (dkeys d).Nodup) : (dkeys (dset d k v)).Nodup := by
  rcases dkeys_dset d k v with h1 | ⟨h1, h2⟩
  · rw [h1]; exact h
  · rw [h1]
    simpa [List.nodup_append, h2] using h

theorem dget_of_mem_nodup {β : Type} {d : List (String × β)}
    (h : (dkeys d).Nodup) {k : String} {v : β} (hm : (k, v) ∈ d) :
    dget d k = some v := by
  induction d with
  | nil => cases hm
  | cons p rest ih =>
    obtain ⟨k1, v1⟩ := p
    rw [dkeys, List.map_cons, List.nodup_cons] at h
    rcases List.mem_cons.mp hm with e1 | m1
    · rw [Prod.mk.injEq] at e1
      simp [dget, e1.1, e1.2]
    · have hne : k1 ≠ k := by
        intro he
        apply h.1
        have hmm := List.mem_map_of_mem Prod.fst m1
        simpa [he] using hmm
      have h2 : (dkeys rest).Nodup := h.2
      simpa [dget, hne] using ih h2 m1

theorem dkeys_nodup_unique {β : Type} {d : List (String × β)}
    (h : (dkeys d).Nodup) {k : String} {v1 v2 : β}
    (h1 : (k, v1) ∈ d) (h2 : (k, v2) ∈ d) : v1 = v2 := by
  have e1 := dget_of_mem_nodup h h1
  have e2 := dget_of_mem_nodup h h2
  exact Option.some.inj (e1.symm.trans e2)

theorem Inv_initState (o : Oracle) : Inv o initState := by
  constructor <;> simp [initState, dkeys, dget]

theorem Inv_disconnect {o : Oracle} {s : CMState} (h : Inv o s) (t : Token) :
    Inv o (disconnect s t).1 := by
  cases hget : dget s.active_connections t with
  | none => simpa [disconnect, hget] using h
  | some w =>
    have hus : (dget s.user_sessions t).isSome := (h.sameKeys t).mp (by simp [hget])
    obtain ⟨info, hinfo⟩ := Option.isSome_iff_exists.mp hus
    have huts : dget s.username_to_session info.username = some t := h.usOk t info hinfo
    have hres : (disconnect s t).1 =
        { active_connections := derase s.active_connections t,
          user_sessions := derase s.user_sessions t,
          username_to_session := derase s.username_to_session info.username } := by
      simp [disconnect, hget, hinfo, huts]
    rw [hres]
    constructor
    · exact dkeys_nodup_derase h.nodupA
    · exact dkeys_nodup_derase h.nodupU
    · exact dkeys_nodup_derase h.nodupN
    · intro t1
      by_cases h1 : t1 = t
      · subst h1
        simp [dget_derase_self t1 h.nodupA, dget_derase_self t1 h.nodupU]
      · simp only [dget_derase_ne _ _ _ h1]
        exact h.sameKeys t1
    · intro t1 i h1
      by_cases h2 : t1 = t
      · subst h2; rw [dget_derase_self t1 h.nodupU] at h1; cases h1
      · rw [dget_derase_ne _ _ _ h2] at h1
        exact h.infoOk t1 i h1
    · intro u t1 h1
      by_cases h2 : u = info.username
      · subst h2; rw [dget_derase_self _ h.nodupN] at h1; cases h1
      · rw [dget_derase_ne _ _ _ h2] at h1
        obtain ⟨i2, hus2, heq⟩ := h.ntsOk u t1 h1
        have h3 : t1 ≠ t := by
          intro he
          subst he
          rw [hinfo] at hus2
          cases hus2
          exact h2 heq.symm
        rw [dget_derase_ne _ _ _ h3]
        exact ⟨i2, hus2, heq⟩
    · intro t1 i h1
      by_cases h2 : t1 = t
      · subst h2; rw [dget_derase_self t1 h.nodupU] at h1; cases h1
      · rw [dget_derase_ne _ _ _ h2] at h1
        have h3 := h.usOk t1 i h1
        have h4 : i.username ≠ info.username := by
          intro he
          rw [he, huts] at h3
          exact h2 (Option.some.inj h3).symm
        rw [dget_derase_ne _ _ _ h4]
        exact h3

theorem Inv_cleanupFailed {o : Oracle} (l : List Token) {s : CMState} (h : Inv o s) :
    Inv o (cleanupFailed s l).1 := by
  induction l generalizing s with
  | nil => simpa [cleanupFailed] using h
  | cons t rest ih =>
    simpa [cleanupFailed] using ih (Inv_disconnect h t)

theorem Inv_broadcast {o : Oracle} {s : CMState} (h : Inv o s) (m : Envelope)
    (ex : Option Token) : Inv o (broadcast o s m ex).1 := by
  simpa [broadcast] using Inv_cleanupFailed _ h

theorem Inv_broadcast_user_list_update {o : Oracle} {s : CMState} (h : Inv o s)
    (msg : Option String) : Inv o (broadcast_user_list_update o s msg).1 := by
  simpa [broadcast_user_list_update] using Inv_broadcast h _ _

theorem Inv_send_personal_message {o : Oracle} {s : CMState} (h : Inv o s)
    (m : Envelope) (u : String) : Inv o (send_personal_message o s m u).1 := by
  unfold send_personal_message
  cases h1 : dget s.username_to_session u with
  | none => exact h
  | some tok =>
    by_cases h2 : tok = ""
    · simp only [if_pos h2]; exact h
    · simp only [if_neg h2]
      cases h3 : dget s.active_connections tok with
      | none => exact h
      | some w =>
        by_cases h4 : o.sendOk w
        · simp only [if_pos h4]; exact h
        · simp only [if_neg h4]; exact Inv_disconnect h tok

theorem Inv_connectInstall {o : Oracle} {s1 : CMState} (tok : Token) (w : WS)
    (nodupA : (dkeys s1.active_connections).Nodup)
    (nodupU : (dkeys s1.user_sessions).Nodup)
    (nodupN : (dkeys s1.username_to_session).Nodup)
    (sameKeys : ∀ t, (dget s1.active_connections t).isSome ↔
      (dget s1.user_sessions t).isSome)
    (infoOk : ∀ t info, dget s1.user_sessions t = some info → info = o.userOfToken t)
    (noUn : ∀ t info, dget s1.user_sessions t = some info →
      info.username ≠ (o.userOfToken tok).username)
    (ntsOk1 : ∀ u t, u ≠ (o.userOfToken tok).username →
      dget s1.username_to_session u = some t →
      ∃ info, dget s1.user_sessions t = some info ∧ info.username = u)
    (usOk : ∀ t info, dget s1.user_sessions t = some info →
      dget s1.username_to_session info.username = some t) :
    Inv o (connectInstall s1 tok w (o.userOfToken tok)) := by
  constructor
  · exact dkeys_nodup_dset nodupA
  · exact dkeys_nodup_dset nodupU
  · exact dkeys_nodup_dset nodupN
  · intro t
    by_cases h1 : t = tok
    · subst h1
      simp [connectInstall, dget_dset_self]
    · simp only [connectInstall, dget_dset_ne _ _ _ _ h1]
      exact sameKeys t
  · intro t i h1
    by_cases h2 : t = tok
    · subst h2
      rw [connectInstall] at h1
      simp only [dget_dset_self] at h1
      exact (Option.some.inj h1).symm ▸ rfl
    · rw [connectInstall] at h1
      simp only [dget_dset_ne _ _ _ _ h2] at h1
      exact infoOk t i h1
  · intro u t h1
    rw [connectInstall] at h1
    by_cases h2 : u = (o.userOfToken tok).username
    · subst h2
      rw [dget_dset_self] at h1
      have h3 : t = tok := (Option.some.inj h1).symm
      subst h3
      exact ⟨o.userOfToken t, by simp [connectInstall, dget_dset_self], rfl⟩
    · rw [dget_dset_ne _ _ _ _ h2] at h1
      obtain ⟨info, hus, heq⟩ := ntsOk1 u t h2 h1
      have h3 : t ≠ tok := by
        intro he
        subst he
        exact h2 (heq ▸ (infoOk t info hus ▸ rfl))
      exact ⟨info, by simp [connectInstall, dget_dset_ne _ _ _ _ h3, hus], heq⟩
  · intro t i h1
    rw [connectInstall] at h1
    by_cases h2 : t = tok
    · subst h2
      rw [dget_dset_self] at h1
      have h3 : i = o.userOfToken t := (Option.some.inj h1).symm
      subst h3
      simp [connectInstall, dget_dset_self]
    · rw [dget_dset_ne _ _ _ _ h2] at h1
      have h3 := noUn t i h1
      simp only [connectInstall, dget_dset_ne _ _ _ _ h3]
      exact usOk t i h1

theorem Inv_connect_core {o : Oracle} {s : CMState} (h : Inv o s) (tok : Token)
    (w : WS) :
    Inv o (connectInstall (connectEvict s (o.userOfToken tok).username).1 tok w
      (o.userOfToken tok)) := by
  cases hn : dget s.username_to_session (o.userOfToken tok).username with
  | none =>
    have he : (connectEvict s (o.userOfToken tok).username).1 = s := by
      simp [connectEvict, hn]
    rw [he]
    refine Inv_connectInstall tok w h.nodupA h.nodupU h.nodupN h.sameKeys h.infoOk
      ?_ ?_ h.usOk
    · intro t info hus heq
      have h1 := h.usOk t info hus
      rw [heq, hn] at h1
      cases h1
    · intro u t _ hu
      exact h.ntsOk u t hu
  | some old =>
    obtain ⟨info_old, hio, hion⟩ := h.ntsOk _ old hn
    have hact : (dget s.active_connections old).isSome :=
      (h.sameKeys old).mpr (by simp [hio])
    obtain ⟨w_old, hwold⟩ := Option.isSome_iff_exists.mp hact
    have he : (connectEvict s (o.userOfToken tok).username).1 =
        { s with active_connections := derase s.active_connections old,
                 user_sessions := derase s.user_sessions old } := by
      simp [connectEvict, hn, hwold]
    rw [he]
    refine Inv_connectInstall tok w (dkeys_nodup_derase h.nodupA)
      (dkeys_nodup_derase h.nodupU) h.nodupN ?_ ?_ ?_ ?_ ?_
    · intro t
      by_cases h1 : t = old
      · subst h1
        simp [dget_derase_self t h.nodupA, dget_derase_self t h.nodupU]
      · simp only [dget_derase_ne _ _ _ h1]
        exact h.sameKeys t
    · intro t i h1
      by_cases h2 : t = old
      · subst h2; rw [dget_derase_self t h.nodupU] at h1; cases h1
      · rw [dget_derase_ne _ _ _ h2] at h1
        exact h.infoOk t i h1
    · intro t i h1 heq
      by_cases h2 : t = old
      · subst h2; rw [dget_derase_self t h.nodupU] at h1; cases h1
      · rw [dget_derase_ne _ _ _ h2] at h1
        have h3 := h.usOk t i h1
        rw [heq, hn] at h3
        exact h2 (Option.some.inj h3).symm
    · intro u t hne h1
      obtain ⟨info, hus, heq⟩ := h.ntsOk u t h1
      have h2 : t ≠ old := by
        intro he2
        subst he2
        rw [hio] at hus
        cases hus
        exact hne (heq ▸ hion ▸ rfl)
      rw [dget_derase_ne _ _ _ h2]
      exact ⟨info, hus, heq⟩
    · intro t i h1
      by_cases h2 : t = old
      · subst h2; rw [dget_derase_self t h.nodupU] at h1; cases h1
      · rw [dget_derase_ne _ _ _ h2] at h1
        exact h.usOk t i h1

theorem Inv_connect {o : Oracle} {s : CMState} (h : Inv o s) (tok : Token)
    (w : WS) : Inv o (connect o s w tok (o.userOfToken tok)).1 := by
  have h2 := Inv_connect_core h tok w
  simpa [connect] using Inv_broadcast_user_list_update h2 _

theorem Inv_applyOp {o : Oracle} {s : CMState} (h : Inv o s) (op : Op) :
    Inv o (applyOp o s op) := by
  cases op with
  | connect t w => exact Inv_connect h t w
  | disconnect t => exact Inv_disconnect h t
  | sendPersonal u env => exact Inv_send_personal_message h env u
  | broadcastMsg env ex => exact Inv_broadcast h env ex

theorem Inv_runOps (o : Oracle) (ops : List Op) {s : CMState} (h : Inv o s) :
    Inv o (runOps o s ops) := by
  induction ops generalizing s with
  | nil => simpa [runOps] using h
  | cons op rest ih => simpa [runOps] using ih (Inv_applyOp h op)

theorem disconnect_active_none {s : CMState} {x : Token} (t : Token)
    (h : dget s.active_connections x = none) :
    dget (disconnect s t).1.active_connections x = none := by
  cases hget : dget s.active_connections t with
  | none => simpa [disconnect, hget] using h
  | some w =>
    simp only [disconnect, hget]
    exact dget_derase_none h

theorem cleanupFailed_active_none (l : List Token) {s : CMState} {x : Token}
    (h : dget s.active_connections x = none) :
    dget (cleanupFailed s l).1.active_connections x = none := by
  induction l generalizing s with
  | nil => simpa [cleanupFailed] using h
  | cons t rest ih =>
    simpa [cleanupFailed] using ih (disconnect_active_none t h)

theorem broadcast_active_none {o : Oracle} {s : CMState} {x : Token}
    (m : Envelope) (ex : Option Token) (h : dget s.active_connections x = none) :
    dget (broadcast o s m ex).1.active_connections x = none := by
  simpa [broadcast] using cleanupFailed_active_none _ h

/-- The delivery sweep sends exactly one envelope to each non-excluded
call-start connection, in order. -/
theorem broadcastSends_events (o : Oracle) (conns : List (Token × WS))
    (m : Envelope) (ex : Option Token) :
    (broadcastSends o conns m ex).1 =
      (conns.filter (fun p => !shouldExclude ex p.1)).map
        (fun p => Event.sent p.2 m (o.sendOk p.2)) := by
  induction conns with
  | nil => simp [broadcastSends]
  | cons p rest ih =>
    obtain ⟨t, w⟩ := p
    by_cases h1 : shouldExclude ex t
    · simp [broadcastSends, h1, List.filter_cons, ih]
    · by_cases h2 : o.sendOk w <;>
        simp [broadcastSends, h1, h2, List.filter_cons, ih]

/-- The delivery sweep collects exactly the non-excluded call-start sessions
whose socket refused the send, in order. -/
theorem broadcastSends_failed (o : Oracle) (conns : List (Token × WS))
    (m : Envelope) (ex : Option Token) :
    (broadcastSends o conns m ex).2 =
      (conns.filter (fun p => !shouldExclude ex p.1 && !o.sendOk p.2)).map Prod.fst := by
  induction conns with
  | nil => simp [broadcastSends]
  | cons p rest ih =>
    obtain ⟨t, w⟩ := p
    by_cases h1 : shouldExclude ex t
    · simp [broadcastSends, h1, List.filter_cons, ih]
    · by_cases h2 : o.sendOk w <;>
        simp [broadcastSends, h1, h2, List.filter_cons, ih]

theorem broadcastSends_failed_nodup (o : Oracle) {conns : List (Token × WS)}
    (m : Envelope) (ex : Option Token) (h : (dkeys conns).Nodup) :
    (broadcastSends o conns m ex).2.Nodup := by
  rw [broadcastSends_failed]
  have h1 : (conns.filter (fun p => !shouldExclude ex p.1 && !o.sendOk p.2)).Sublist
      conns := List.filter_sublist _
  have h2 := h1.map Prod.fst
  exact h2.nodup h

/-- When no concurrent mutation is scheduled, the interleaved broadcast loop
agrees with the sequential one (and in particular does not raise). -/
theorem broadcastIGo_no_mutation (o : Oracle) (m : Envelope) (ex : Option Token)
    (origLen : Nat) (remaining : List (Token × WS)) (s : CMState)
    (sched : List (Option Token)) (evs : List Event) (failed : List Token)
    (hs : ∀ c ∈ sched, c = none) (hlen : s.active_connections.length = origLen) :
    broadcastIGo o m ex origLen remaining s sched evs failed =
      Except.ok
        ((cleanupFailed s (failed ++ (broadcastSends o remaining m ex).2)).1,
         (evs ++ (broadcastSends o remaining m ex).1) ++
           (cleanupFailed s (failed ++ (broadcastSends o remaining m ex).2)).2) := by
  induction remaining generalizing sched evs failed with
  | nil =>
    simp [broadcastIGo, hlen, broadcastSends]
  | cons p rest ih =>
    obtain ⟨t, w⟩ := p
    rw [broadcastIGo, if_neg (by simp [hlen])]
    by_cases h1 : shouldExclude ex t
    · rw [if_pos h1, ih sched evs failed hs]
      simp [broadcastSends, h1]
    · rw [if_neg h1]
      cases h2 : o.sendOk w with
      | true =>
        simp only [h2, eq_self_iff_true, if_true]
        cases sched with
        | nil =>
          rw [ih [] (evs ++ [Event.sent w m true]) failed (by simp)]
          simp [broadcastSends, h1, h2]
        | cons c cs =>
          have hc : c = none := hs c (by simp)
          subst hc
          change broadcastIGo o m ex origLen rest s cs
            (evs ++ [Event.sent w m true]) failed = _
          rw [ih cs (evs ++ [Event.sent w m true]) failed
            (fun c1 hc1 => hs c1 (by simp [hc1]))]
          simp [broadcastSends, h1, h2]
      | false =>
        simp only [h2, Bool.false_eq_true, if_false]
        cases sched with
        | nil =>
          rw [ih [] (evs ++ [Event.sent w m false]) (failed ++ [t]) (by simp)]
          simp [broadcastSends, h1, h2]
        | cons c cs =>
          have hc : c = none := hs c (by simp)
          subst hc
          change broadcastIGo o m ex origLen rest s cs
            (evs ++ [Event.sent w m false]) (failed ++ [t]) = _
          rw [ih cs (evs ++ [Event.sent w m false]) (failed ++ [t])
            (fun c1 hc1 => hs c1 (by simp [hc1]))]
          simp [broadcastSends, h1, h2]

/-- Special case: a fully idle schedule makes the interleaved broadcast agree
with the sequential broadcast. -/
theorem broadcastI_no_mutation (o : Oracle) (s : CMState) (m : Envelope)
    (ex : Option Token) (sched : List (Option Token))
    (hs : ∀ c ∈ sched, c = none) :
    broadcastI o s m ex sched = Except.ok (broadcast o s m ex) := by
  rw [broadcastI, broadcastIGo_no_mutation o m ex _ _ _ sched [] [] hs rfl]
  simp [broadcast]

/-- Admitting a fresh session for an already-present username removes the old
session's connection, and it stays removed through the user-list broadcast
that ends the admission. -/
theorem connect_evicts {o : Oracle} {s : CMState} (h : Inv o s) {u : String}
    {old : Token} (tok : Token) (w : WS)
    (hn : dget s.username_to_session u = some old)
    (hu : (o.userOfToken tok).username = u) (hne : old ≠ tok) :
    dget (connect o s w tok (o.userOfToken tok)).1.active_connections old = none := by
  obtain ⟨info_old, hio, hion⟩ := h.ntsOk u old hn
  have hact : (dget s.active_connections old).isSome :=
    (h.sameKeys old).mpr (by simp [hio])
  obtain ⟨w_old, hwold⟩ := Option.isSome_iff_exists.mp hact
  have he : (connectEvict s (o.userOfToken tok).username).1 =
      { s with active_connections := derase s.active_connections old,
               user_sessions := derase s.user_sessions old } := by
    simp [connectEvict, hu, hn, hwold]
  have h1 : dget (connectInstall (connectEvict s (o.userOfToken tok).username).1
      tok w (o.userOfToken tok)).active_connections old = none := by
    rw [he, connectInstall]
    simp only [dget_dset_ne _ _ _ _ hne]
    exact dget_derase_self old h.nodupA
  rw [connect]
  simp only [broadcast_user_list_update]
  exact broadcast_active_none _ _ h1

/-- The trace of a disconnect call is either empty or one offline-status
database update; in particular it contains no send. -/
theorem disconnect_events_cases (s : CMState) (t : Token) :
    (disconnect s t).2.1 = [] ∨
      ∃ n, (disconnect s t).2.1 = [Event.setOnline n false] := by
  cases hget : dget s.active_connections t with
  | none => simp [disconnect, hget]
  | some w =>
    cases hus : dget s.user_sessions t with
    | none => simp [disconnect, hget, hus]
    | some info =>
      by_cases hz : info.id = 0
      · simp [disconnect, hget, hus, hz]
      · right
        exact ⟨info.id, by simp [disconnect, hget, hus, hz]⟩

theorem disconnect_events_no_send (s : CMState) (t : Token) :
    (disconnect s t).2.1.all (fun e => !isSendEvent e) = true := by
  rcases disconnect_events_cases s t with h | ⟨n, h⟩ <;>
    simp [h, isSendEvent]

/-- The trace of send_personal_message: nothing, one successful send, or one
failed send followed by the disconnect trace. -/
theorem spm_events_cases (o : Oracle) (s : CMState) (m : Envelope) (u : String) :
    (send_personal_message o s m u).2.1 = [] ∨
    (∃ w, (send_personal_message o s m u).2.1 = [Event.sent w m true]) ∨
    (∃ w t, (send_personal_message o s m u).2.1 =
      Event.sent w m false :: (disconnect s t).2.1) := by
  unfold send_personal_message
  cases h1 : dget s.username_to_session u with
  | none => simp
  | some tok =>
    by_cases h2 : tok = ""
    · simp [h2]
    · simp only [if_neg h2]
      cases h3 : dget s.active_connections tok with
      | none => simp
      | some w =>
        by_cases h4 : o.sendOk w
        · simp only [h4, if_true]
          right; left
          exact ⟨w, rfl⟩
        · simp only [h4, Bool.false_eq_true, if_false]
          right; right
          exact ⟨w, tok, rfl⟩

/-- Every call-start connection receives a send attempt from an unexcluded
broadcast. -/
theorem broadcast_mem_sent (o : Oracle) (s : CMState) (m : Envelope)
    {p : Token × WS} (hp : p ∈ s.active_connections) :
    Event.sent p.2 m (o.sendOk p.2) ∈ (broadcast o s m none).2 := by
  have h1 : Event.sent p.2 m (o.sendOk p.2) ∈
      (broadcastSends o s.active_connections m none).1 := by
    rw [broadcastSends_events]
    apply List.mem_map_of_mem
    rw [List.mem_filter]
    exact ⟨hp, by simp [shouldExclude, pyTruthy]⟩
  rw [broadcast]
  exact List.mem_append_left _ h1

/-- C1: after any sequence of admissions and removals (indeed of all four
registry operations) from the fresh manager, username_to_session holds at
most one session token per username, no two live session tokens belong to
the same username, and admitting a fresh session for an already-present
username removes the old session's connection. -/
theorem C1_one_presence_entry_per_user (o : Oracle) (ops : List Op) :
    (∀ u t1 t2, (u, t1) ∈ (runOps o initState ops).username_to_session →
      (u, t2) ∈ (runOps o initState ops).username_to_session → t1 = t2) ∧
    (∀ t1 t2 w1 w2 i1 i2,
      dget (runOps o initState ops).active_connections t1 = some w1 →
      dget (runOps o initState ops).active_connections t2 = some w2 →
      dget (runOps o initState ops).user_sessions t1 = some i1 →
      dget (runOps o initState ops).user_sessions t2 = some i2 →
      i1.username = i2.username → t1 = t2) ∧
    (∀ u old tok w,
      dget (runOps o initState ops).username_to_session u = some old →
      (o.userOfToken tok).username = u → old ≠ tok →
      dget (applyOp o (runOps o initState ops)
        (Op.connect tok w)).active_connections old = none) := by
  have h := Inv_runOps o ops (Inv_initState o)
  refine ⟨?_, ?_, ?_⟩
  · intro u t1 t2 h1 h2
    exact dkeys_nodup_unique h.nodupN h1 h2
  · intro t1 t2 w1 w2 i1 i2 ha1 ha2 hu1 hu2 heq
    have e1 := h.usOk t1 i1 hu1
    have e2 := h.usOk t2 i2 hu2
    rw [heq] at e1
    exact Option.some.inj (e1.symm.trans e2)
  · intro u old tok w hn hu hne
    exact connect_evicts h tok w hn hu hne

/-- C1 witness: alice is connected with token "ta"; admitting her fresh
token "ta2" removes the "ta" connection. -/
theorem C1_one_presence_entry_per_user_witness :
    dget (applyOp oracleA (runOps oracleA initState [Op.connect "ta" 1])
      (Op.connect "ta2" 3)).active_connections "ta" = none :=
  (C1_one_presence_entry_per_user oracleA [Op.connect "ta" 1]).2.2
    "alice" "ta" "ta2" 3 (by decide) (by decide) (by decide)

/-- C9: after any sequence of registry operations from the fresh manager,
active_connections and user_sessions have the same key set, and
username_to_session is the inverse of the username view of user_sessions. -/
theorem C9_registry_maps_consistent (o : Oracle) (ops : List Op) :
    (∀ t, (dget (runOps o initState ops).active_connections t).isSome ↔
      (dget (runOps o initState ops).user_sessions t).isSome) ∧
    (∀ t info, dget (runOps o initState ops).user_sessions t = some info →
      dget (runOps o initState ops).username_to_session info.username = some t) ∧
    (∀ u t, dget (runOps o initState ops).username_to_session u = some t →
      ∃ info, dget (runOps o initState ops).user_sessions t = some info ∧
        info.username = u) := by
  have h := Inv_runOps o ops (Inv_initState o)
  exact ⟨h.sameKeys, h.usOk, h.ntsOk⟩

/-- C9 witness: in the two-user state, alice's user_sessions entry under
token "ta" is mirrored by username_to_session. -/
theorem C9_registry_maps_consistent_witness :
    dget (runOps oracleA initState
      [Op.connect "ta" 1, Op.connect "tb" 2]).username_to_session "alice" =
      some "ta" :=
  (C9_registry_maps_consistent oracleA [Op.connect "ta" 1, Op.connect "tb" 2]).2.1
    "ta" ⟨1, "alice"⟩ (by decide)

/-- C2: for a chat frame that passes recipient resolution, a failed
save_message yields exactly one error send to the sender's own socket and no
other effect, and a successful save_message puts the persistence event
strictly before everything else in the trace (in particular before every
delivery). -/
theorem C2_persist_before_deliver (o : Oracle) (s : CMState) (token : Token)
    (user : UserInfo) (senderWs : WS) (f : Frame) (rid : Option Nat)
    (hty : f.type?.getD "chat" = "chat")
    (hres : resolveRecipient o f.recipient = some rid) :
    (handleFrame o s token user senderWs false f =
      (s, [Event.sent senderWs (Envelope.error "Failed to save message")
        (o.sendOk senderWs)], !o.sendOk senderWs)) ∧
    (∃ rest, (handleFrame o s token user senderWs true f).2.1 =
      Event.persisted f.content user.id rid :: rest) := by
  constructor
  · simp [handleFrame, hty, hres]
  · cases hrec : f.recipient with
    | none =>
      rw [hrec] at hres
      simp [handleFrame, hty, hrec, hres]
    | some r =>
      rw [hrec] at hres
      simp [handleFrame, hty, hrec, hres]

/-- C2 witness: in the two-user state, a global chat frame from alice whose
save fails produces exactly the error send to her socket. -/
theorem C2_persist_before_deliver_witness :
    handleFrame oracleA stateAB "ta" ⟨1, "alice"⟩ 1 false
      ⟨some "chat", "hi", none, false⟩ =
      (stateAB,
       [Event.sent 1 (Envelope.error "Failed to save message") (oracleA.sendOk 1)],
       !oracleA.sendOk 1) :=
  (C2_persist_before_deliver oracleA stateAB "ta" ⟨1, "alice"⟩ 1
    ⟨some "chat", "hi", none, false⟩ none (by decide) (by decide)).1

/-- C8: a chat frame naming a nonempty recipient username unknown to the user
table produces exactly one error envelope sent to the sender (successfully,
so the read loop continues), no persistence, no delivery, and no registry
change. -/
theorem C8_unknown_recipient_error (o : Oracle) (s : CMState) (token : Token)
    (user : UserInfo) (senderWs : WS) (saveOk : Bool) (f : Frame) (r : String)
    (hty : f.type?.getD "chat" = "chat") (hrec : f.recipient = some r)
    (hr : r ≠ "") (hdb : o.dbUser r = none) (hso : o.sendOk senderWs = true) :
    handleFrame o s token user senderWs saveOk f =
      (s, [Event.sent senderWs
        (Envelope.error ("User " ++ r ++ " not found")) true], false) := by
  have hres : resolveRecipient o (some r) = none := by
    simp [resolveRecipient, pyTruthy, hr, hdb]
  simp [handleFrame, hty, hrec, hres, hso]

/-- C8 witness: alice names the unregistered user "carol". -/
theorem C8_unknown_recipient_error_witness :
    handleFrame oracleA stateAB "ta" ⟨1, "alice"⟩ 1 true
      ⟨some "chat", "x", some "carol", false⟩ =
      (stateAB,
       [Event.sent 1 (Envelope.error ("User " ++ "carol" ++ " not found")) true],
       false) :=
  C8_unknown_recipient_error oracleA stateAB "ta" ⟨1, "alice"⟩ 1 true
    ⟨some "chat", "x", some "carol", false⟩ "carol" (by decide) (by decide)
    (by decide) (by decide) (by decide)

/-- C10: a frame whose type field is none of chat, typing and
request_user_list leaves the state untouched, emits nothing and raises
nothing; and a frame with no type field behaves exactly as the same frame
with type chat. -/
theorem C10_unknown_type_ignored (o : Oracle) (s : CMState) (token : Token)
    (user : UserInfo) (senderWs : WS) (saveOk : Bool) (f : Frame) (t : String)
    (hty : f.type? = some t) (h1 : t ≠ "chat") (h2 : t ≠ "typing")
    (h3 : t ≠ "request_user_list") :
    handleFrame o s token user senderWs saveOk f = (s, [], false) ∧
    (∀ c (r : Option String) (it : Bool),
      handleFrame o s token user senderWs saveOk ⟨none, c, r, it⟩ =
        handleFrame o s token user senderWs saveOk ⟨some "chat", c, r, it⟩) := by
  constructor
  · simp [handleFrame, hty, h1, h2, h3]
  · intro c r it
    rfl

/-- C10 witness: type "presence_ping" is silently ignored in the two-user
state. -/
theorem C10_unknown_type_ignored_witness :
    handleFrame oracleA stateAB "ta" ⟨1, "alice"⟩ 1 true
      ⟨some "presence_ping", "x", none, false⟩ = (stateAB, [], false) :=
  (C10_unknown_type_ignored oracleA stateAB "ta" ⟨1, "alice"⟩ 1 true
    ⟨some "presence_ping", "x", none, false⟩ "presence_ping" (by decide)
    (by decide) (by decide) (by decide)).1

/-- C3 counterexample: alice (socket 1) and bob (socket 2) are connected and
bob's socket is dead.  send_personal_message to bob returns false and removes
bob's presence entry, but the whole trace is one failed send plus the
offline-status DB update: no presence-update announcement reaches the
remaining client (socket 1), contradicting the claimed announcement. -/
theorem C3_counterexample :
    send_personal_message oracleB stateAB
        (Envelope.chat "hi" "alice" false (some "bob")) "bob" =
      (⟨[("ta", 1)], [("ta", ⟨1, "alice"⟩)], [("alice", "ta")]⟩,
       [Event.sent 2 (Envelope.chat "hi" "alice" false (some "bob")) false,
        Event.setOnline 2 false], false) ∧
    (send_personal_message oracleB stateAB
        (Envelope.chat "hi" "alice" false (some "bob")) "bob").2.1.all
      (fun e => !isPresenceAnnouncement e) = true := by
  constructor
  · decide
  · decide

/-- C3 amended: send_personal_message returns false without effect when the
recipient has no live connection; when the recipient is live and the send
fails it returns false and removes that presence entry, but performs no
further send at all, so in particular no presence-update announcement is made
to the remaining clients. -/
theorem C3_send_failure_removes_silently (o : Oracle) (s : CMState)
    (env : Envelope) (u : String) (tok : Token) (w : WS)
    (h1 : dget s.username_to_session u = some tok) (h2 : tok ≠ "")
    (h3 : dget s.active_connections tok = some w) (h4 : o.sendOk w = false) :
    (send_personal_message o s env u =
      ((disconnect s tok).1, Event.sent w env false :: (disconnect s tok).2.1,
       false)) ∧
    ((disconnect s tok).2.1.all (fun e => !isSendEvent e) = true) ∧
    (∀ u1, dget s.username_to_session u1 = none →
      send_personal_message o s env u1 = (s, [], false)) := by
  refine ⟨?_, disconnect_events_no_send s tok, ?_⟩
  · simp [send_personal_message, h1, h2, h3, h4]
  · intro u1 hu1
    simp [send_personal_message, hu1]

/-- C3 witness: the amended behaviour at the concrete dead-socket state. -/
theorem C3_send_failure_removes_silently_witness :
    send_personal_message oracleB stateAB
        (Envelope.chat "hi" "alice" false (some "bob")) "bob" =
      ((disconnect stateAB "tb").1,
       Event.sent 2 (Envelope.chat "hi" "alice" false (some "bob")) false ::
         (disconnect stateAB "tb").2.1, false) :=
  (C3_send_failure_removes_silently oracleB stateAB
    (Envelope.chat "hi" "alice" false (some "bob")) "bob" "tb" 2
    (by decide) (by decide) (by decide) (by decide)).1

/-- C4 counterexample: the broadcast loop iterates the live dict, not a
snapshot.  With alice and bob connected and all sockets healthy, a concurrent
disconnect of bob during the await of the first send makes the next iteration
step raise (dictionary changed size during iteration), contradicting the
claim that removals mid-broadcast do not raise. -/
theorem C4_counterexample :
    broadcastI oracleA stateAB (Envelope.chat "hi" "alice" true none) none
      [some "tb"] = Except.error () := by
  rfl

/-- C4 amended: broadcast iterates the live connection dict; only when the
connection set is not mutated during the sweep does it behave like a snapshot
iteration: it then attempts exactly one send per call-start connection except
the excluded one, collects exactly the failed ones, and removes each of them
exactly once after the sweep completes. -/
theorem C4_broadcast_live_dict (o : Oracle) (s : CMState) (m : Envelope)
    (ex : Option Token) (sched : List (Option Token))
    (hs : ∀ c ∈ sched, c = none)
    (hnd : (dkeys s.active_connections).Nodup) :
    (broadcastI o s m ex sched = Except.ok (broadcast o s m ex)) ∧
    ((broadcast o s m ex).2 =
      ((s.active_connections.filter (fun p => !shouldExclude ex p.1)).map
        (fun p => Event.sent p.2 m (o.sendOk p.2))) ++
      (cleanupFailed s ((s.active_connections.filter
        (fun p => !shouldExclude ex p.1 && !o.sendOk p.2)).map Prod.fst)).2) ∧
    ((broadcast o s m ex).1 =
      (cleanupFailed s ((s.active_connections.filter
        (fun p => !shouldExclude ex p.1 && !o.sendOk p.2)).map Prod.fst)).1) ∧
    (((s.active_connections.filter
        (fun p => !shouldExclude ex p.1 && !o.sendOk p.2)).map Prod.fst).Nodup) := by
  refine ⟨broadcastI_no_mutation o s m ex sched hs, ?_, ?_, ?_⟩
  · rw [broadcast, broadcastSends_events, broadcastSends_failed]
  · rw [broadcast, broadcastSends_failed]
  · have h : (broadcastSends o s.active_connections m ex).2.Nodup :=
      broadcastSends_failed_nodup o m ex hnd
    rwa [broadcastSends_failed] at h

/-- C4 witness: with no concurrent mutation scheduled, the interleaved loop
agrees with the sequential broadcast on the concrete two-user state. -/
theorem C4_broadcast_live_dict_witness :
    broadcastI oracleA stateAB (Envelope.chat "hi" "alice" true none) none
      [none, none] =
      Except.ok (broadcast oracleA stateAB (Envelope.chat "hi" "alice" true none)
        none) :=
  (C4_broadcast_live_dict oracleA stateAB (Envelope.chat "hi" "alice" true none)
    none [none, none] (by decide) (by decide)).1

/-- C5 counterexample: alice (socket 1) sends a global chat frame; the
resulting chat envelope is sent back to her own socket 1, contradicting the
claim that it is not echoed to the sender's connection. -/
theorem C5_counterexample :
    Event.sent 1 (Envelope.chat "hi" "alice" true none) true ∈
      (handleFrame oracleA stateAB "ta" ⟨1, "alice"⟩ 1 true
        ⟨some "chat", "hi", none, false⟩).2.1 := by
  decide

/-- C5 amended: a successfully persisted global chat frame is delivered to
every live connection, including an echo back to the sender's own connection
(the broadcast call passes no exclusion). -/
theorem C5_global_chat_echoed_to_all (o : Oracle) (s : CMState) (token : Token)
    (user : UserInfo) (senderWs : WS) (c : String) :
    ∀ p ∈ s.active_connections,
      Event.sent p.2 (Envelope.chat c user.username true none) (o.sendOk p.2) ∈
        (handleFrame o s token user senderWs true
          ⟨some "chat", c, none, false⟩).2.1 := by
  intro p hp
  have hmem := broadcast_mem_sent o s (Envelope.chat c user.username true none) hp
  exact List.mem_cons_of_mem _ hmem

/-- C5 witness: the delivery to bob's socket 2 in the concrete state. -/
theorem C5_global_chat_echoed_to_all_witness :
    Event.sent 2 (Envelope.chat "hi" "alice" true none) true ∈
      (handleFrame oracleA stateAB "ta" ⟨1, "alice"⟩ 1 true
        ⟨some "chat", "hi", none, false⟩).2.1 :=
  C5_global_chat_echoed_to_all oracleA stateAB "ta" ⟨1, "alice"⟩ 1 "hi"
    ("tb", 2) (by decide)

/-- C6: disconnect removes the matching presence entry and returns the
username when one exists; it is a no-op returning None when the entry is
already gone, so running it twice equals running it once; and the teardown
path announces a departure (with a reason naming the user) exactly when an
entry was actually removed. -/
theorem C6_disconnect_idempotent (o : Oracle) (s : CMState) (t : Token) (w : WS)
    (info : UserInfo) (ep : Bool)
    (hnd : (dkeys s.active_connections).Nodup)
    (ha : dget s.active_connections t = some w)
    (hu : dget s.user_sessions t = some info) :
    ((disconnect s t).2.2 = some info.username) ∧
    (dget (disconnect s t).1.active_connections t = none) ∧
    (disconnect (disconnect s t).1 t = ((disconnect s t).1, [], none)) ∧
    (∀ s1 t1, dget s1.active_connections t1 = none →
      disconnect s1 t1 = (s1, [], none)) ∧
    (∀ s1 t1, dget s1.active_connections t1 = none →
      teardown o s1 t1 ep = (s1, [])) ∧
    (info.username ≠ "" → teardown o s t ep =
      ((broadcast_user_list_update o (disconnect s t).1
        (some (if ep then info.username ++ " disconnected due to error"
               else info.username ++ " left the chat"))).1,
       (disconnect s t).2.1 ++
         (broadcast_user_list_update o (disconnect s t).1
           (some (if ep then info.username ++ " disconnected due to error"
                  else info.username ++ " left the chat"))).2)) := by
  have h2 : dget (disconnect s t).1.active_connections t = none := by
    have : (disconnect s t).1.active_connections = derase s.active_connections t := by
      simp [disconnect, ha, hu]
    rw [this]
    exact dget_derase_self t hnd
  have hnoop : ∀ s1 t1, dget s1.active_connections t1 = none →
      disconnect s1 t1 = (s1, [], none) := by
    intro s1 t1 hn
    simp [disconnect, hn]
  refine ⟨?_, h2, hnoop _ _ h2, hnoop, ?_, ?_⟩
  · simp [disconnect, ha, hu]
  · intro s1 t1 hn
    simp [teardown, hnoop s1 t1 hn]
  · intro hne
    have hd : (disconnect s t).2.2 = some info.username := by
      simp [disconnect, ha, hu]
    rw [teardown, hd]
    simp [hne]

/-- C6 witness: disconnecting alice twice in the two-user state equals
disconnecting her once, the second call returning None. -/
theorem C6_disconnect_idempotent_witness :
    disconnect (disconnect stateAB "ta").1 "ta" =
      ((disconnect stateAB "ta").1, [], none) :=
  (C6_disconnect_idempotent oracleA stateAB "ta" 1 ⟨1, "alice"⟩ false
    (by decide) (by decide) (by decide)).2.2.1

/-- C7: a chat frame naming a known recipient is persisted exactly once and
the chat envelope is sent to at most one live connection; the sender gets a
chat_sent confirmation carrying exactly the outcome of the direct send; when
the recipient is offline the confirmation carries delivered = false and (if
the sender's socket accepts the confirmation) no exception escapes the loop
iteration; when the recipient is online on a healthy socket the confirmation
carries delivered = true. -/
theorem C7_private_chat_confirmation (o : Oracle) (s : CMState) (token : Token)
    (user : UserInfo) (senderWs : WS) (f : Frame) (r : String) (ru : UserInfo)
    (hty : f.type?.getD "chat" = "chat")
    (hrec : f.recipient = some r) (hr : r ≠ "")
    (hdb : o.dbUser r = some ru) :
    ((handleFrame o s token user senderWs true f).2.1.countP isPersistEvent = 1) ∧
    ((handleFrame o s token user senderWs true f).2.1.countP
      (isSendOf (Envelope.chat f.content user.username false (some r))) ≤ 1) ∧
    (Event.sent senderWs
      (Envelope.chat_sent f.content user.username false (some r)
        (send_personal_message o s
          (Envelope.chat f.content user.username false (some r)) r).2.2)
      (o.sendOk senderWs) ∈ (handleFrame o s token user senderWs true f).2.1) ∧
    (dget s.username_to_session r = none →
      (send_personal_message o s
        (Envelope.chat f.content user.username false (some r)) r).2.2 = false ∧
      (o.sendOk senderWs = true →
        (handleFrame o s token user senderWs true f).2.2 = false)) ∧
    (∀ t w, dget s.username_to_session r = some t → t ≠ "" →
      dget s.active_connections t = some w → o.sendOk w = true →
      (send_personal_message o s
        (Envelope.chat f.content user.username false (some r)) r).2.2 = true) := by
  have hres : resolveRecipient o (some r) = some (some ru.id) := by
    simp [resolveRecipient, pyTruthy, hr, hdb]
  have hev : (handleFrame o s token user senderWs true f).2.1 =
      Event.persisted f.content user.id (some ru.id) ::
        ((send_personal_message o s
            (Envelope.chat f.content user.username false (some r)) r).2.1 ++
         [Event.sent senderWs
           (Envelope.chat_sent f.content user.username false (some r)
             (send_personal_message o s
               (Envelope.chat f.content user.username false (some r)) r).2.2)
           (o.sendOk senderWs)]) := by
    simp [handleFrame, hty, hrec, hres]
  have hraise : (handleFrame o s token user senderWs true f).2.2 =
      !o.sendOk senderWs := by
    simp [handleFrame, hty, hrec, hres]
  refine ⟨?_, ?_, ?_, ?_, ?_⟩
  · rw [hev]
    rcases spm_events_cases o s
        (Envelope.chat f.content user.username false (some r)) r with
      hc | ⟨w1, hc⟩ | ⟨w1, t1, hc⟩
    · simp [hc, isPersistEvent]
    · simp [hc, isPersistEvent]
    · rw [hc]
      rcases disconnect_events_cases s t1 with hd | ⟨n, hd⟩ <;>
        simp [hd, isPersistEvent]
  · rw [hev]
    rcases spm_events_cases o s
        (Envelope.chat f.content user.username false (some r)) r with
      hc | ⟨w1, hc⟩ | ⟨w1, t1, hc⟩
    · simp [hc, isSendOf]
    · simp [hc, isSendOf]
    · rw [hc]
      rcases disconnect_events_cases s t1 with hd | ⟨n, hd⟩ <;>
        simp [hd, isSendOf]
  · rw [hev]
    exact List.mem_cons_of_mem _ (List.mem_append_right _ (by simp))
  · intro hoff
    have hspm : send_personal_message o s
        (Envelope.chat f.content user.username false (some r)) r = (s, [], false) := by
      simp [send_personal_message, hoff]
    refine ⟨by rw [hspm], ?_⟩
    intro hso
    rw [hraise, hso]
    rfl
  · intro t w h1 h2 h3 h4
    simp [send_personal_message, h1, h2, h3, h4]

/-- C7 witness: alice sends a private chat to the online bob; the persistence
event occurs exactly once in the trace. -/
theorem C7_private_chat_confirmation_witness :
    (handleFrame oracleA stateAB "ta" ⟨1, "alice"⟩ 1 true
      ⟨some "chat", "secret", some "bob", false⟩).2.1.countP isPersistEvent = 1 :=
  (C7_private_chat_confirmation oracleA stateAB "ta" ⟨1, "alice"⟩ 1
    ⟨some "chat", "secret", some "bob", false⟩ "bob" ⟨2, "bob"⟩ (by decide)
    (by decide) (by decide) (by decide)).1

end Chat
